import Mathlib

/-!
# swupdate `examples/goclient/main.go`: streaming multipart body

A shallow embedding of `bodyMultiReader`, `parseCommandLine` and `main` of
`examples/goclient/main.go`, together with the parts of the Go standard
library they rest on (`fmt.Sprintf` with `%s`, `strings.Reader`,
`os.File.Read`, `io.MultiReader`, `flag.Parse`, `os.Exit` and `defer`).

Go strings are byte sequences; a byte is a natural number and `len` is the
length of the byte list.  `int64` arithmetic wraps modulo `2^64`.
-/

namespace GoClient

/-! ## Bytes and Go strings -/

/-- One byte of a Go string or of a file. -/
abbrev Byte := Nat

/-- UTF-8 encoding of one code point, as Go stores string literals. -/
def utf8EncodeRune (c : Nat) : List Byte :=
  if c < 0x80 then [c]
  else if c < 0x800 then [0xC0 + c / 64, 0x80 + c % 64]
  else if c < 0x10000 then [0xE0 + c / 4096, 0x80 + (c / 64) % 64, 0x80 + c % 64]
  else [0xF0 + c / 262144, 0x80 + (c / 4096) % 64, 0x80 + (c / 64) % 64, 0x80 + c % 64]

/-- The bytes of a Go string literal. -/
def goStr (s : String) : List Byte :=
  s.toList.flatMap (fun c => utf8EncodeRune c.toNat)

/-- Go's `error` values as far as the program tells them apart: `io.EOF` and
any other error, identified by a number. -/
inductive GoError where
  | EOF : GoError
  | errno (code : Nat) : GoError
  deriving DecidableEq

/-- Two's complement wrap-around of a mathematical integer into `int64`. -/
def wrapInt64 (x : Int) : Int :=
  (x + 2 ^ 63) % 2 ^ 64 - 2 ^ 63

/-- The verbs of `fmt.Sprintf` used by `bodyMultiReader`: `%s` is replaced by
the next operand, verbatim (operands are not scanned again); with no operand
left Go writes `%!s(MISSING)`.  Every other byte is copied. -/
def Sprintf : List Byte → List (List Byte) → List Byte
  | [], _ => []
  | 37 :: 115 :: rest, a :: as => a ++ Sprintf rest as
  | 37 :: 115 :: rest, [] => goStr "%!s(MISSING)" ++ Sprintf rest []
  | c :: rest, as => c :: Sprintf rest as

/-! ## The file handle -/

/-- What `file.Stat()` reports and the program uses: `Name()` and `Size()`. -/
structure FileInfo where
  name : List Byte
  size : Int
  deriving DecidableEq

/-- An open `*os.File` on a regular file.  `name` and `size` are what `Stat`
reports at the time of the call (`size` is an `int64`), `statErr` is the error
of `Stat` if it fails, `data` is the content that reads deliver and `off` is
the handle's current read position. -/
structure File where
  name : List Byte
  size : Int
  statErr : Option GoError
  data : List Byte
  off : Nat
  deriving DecidableEq

/-- The method `file.Stat()`: the file information and a nil error, or no
information (here an empty one) and the error. -/
def File.Stat (f : File) : FileInfo × Option GoError :=
  match f.statErr with
  | some e => (⟨[], 0⟩, some e)
  | none => (⟨f.name, f.size⟩, none)

/-- The method `file.Read(p)` with `len(p) = n`: a zero-length read returns `0, nil`;
otherwise up to `n` bytes from the current position are delivered and the
position advances, and at the end of the file the result is `0, io.EOF`. -/
def File.Read (f : File) (n : Nat) : List Byte × Option GoError × File :=
  if n = 0 then ([], none, f)
  else
    let chunk := (f.data.drop f.off).take n
    if chunk = [] then ([], some GoError.EOF, f)
    else (chunk, none, { f with off := f.off + chunk.length })

/-! ## Readers -/

/-- The readers handed to `io.MultiReader` in `bodyMultiReader`:
a `strings.Reader` over `s` at index `i`, the file handle itself (its state
lives in the `File`), and the `eofReader` that `io.MultiReader` leaves behind. -/
inductive Reader where
  | stringsReader (s : List Byte) (i : Nat) : Reader
  | osFile : Reader
  | eofReader : Reader
  deriving DecidableEq

/-- The constructor `strings.NewReader(s)`. -/
def stringsNewReader (s : List Byte) : Reader := Reader.stringsReader s 0

/-- One `Read(p)` with `len(p) = n` on a single reader.
`strings.Reader.Read`: at the end `0, io.EOF`, otherwise `copy(p, s[i:])`. -/
def Reader.Read (r : Reader) (f : File) (n : Nat) :
    List Byte × Option GoError × Reader × File :=
  match r with
  | Reader.stringsReader s i =>
    if i ≥ s.length then ([], some GoError.EOF, r, f)
    else
      let chunk := (s.drop i).take n
      (chunk, none, Reader.stringsReader s (i + chunk.length), f)
  | Reader.osFile =>
    let res := f.Read n
    (res.1, res.2.1, Reader.osFile, res.2.2)
  | Reader.eofReader => ([], some GoError.EOF, r, f)

/-- The state of the composite stream: the shared file handle and the list of
readers that `io.MultiReader` still holds. -/
structure Stream where
  file : File
  readers : List Reader
  deriving DecidableEq

/-- The loop of `multiReader.Read`: read from the first reader; on `io.EOF`
drop it; return as soon as bytes were read or the error is not `io.EOF`,
turning `io.EOF` into `nil` while readers remain; with no reader left return
`0, io.EOF`. -/
def multiRead (n : Nat) : File → List Reader → List Byte × Option GoError × Stream
  | f, [] => ([], some GoError.EOF, ⟨f, []⟩)
  | f, r :: rs =>
    let res := r.Read f n
    let bytes := res.1
    let err := res.2.1
    let f1 := res.2.2.2
    if err = some GoError.EOF then
      if bytes.length > 0 then
        (bytes, (if rs.length > 0 then none else err), ⟨f1, rs⟩)
      else multiRead n f1 rs
    else (bytes, err, ⟨f1, res.2.2.1 :: rs⟩)

/-- One `Read(p)` with `len(p) = n` on the composite stream. -/
def Stream.Read (st : Stream) (n : Nat) : List Byte × Option GoError × Stream :=
  multiRead n st.file st.readers

/-- A consumer that drains the stream with a buffer of `n` bytes, as
`io.ReadAll` or the HTTP transport does: read until `io.EOF`, collecting the
bytes; any other error aborts.  `fuel` bounds the number of reads. -/
def drain (n : Nat) : Nat → Stream → Option (List Byte × Stream)
  | 0, _ => none
  | fuel + 1, st =>
    let res := st.Read n
    match res.2.1 with
    | some GoError.EOF => some (res.1, res.2.2)
    | some _ => none
    | none =>
      match drain n fuel res.2.2 with
      | some (bs, st1) => some (res.1 ++ bs, st1)
      | none => none

/-- The bytes a stream still has to deliver: for each reader in turn what is
left of it, the file being read from its current position to its end. -/
def pending : File → List Reader → List Byte
  | _, [] => []
  | f, Reader.stringsReader s i :: rs => s.drop i ++ pending f rs
  | f, Reader.osFile :: rs =>
    f.data.drop f.off ++ pending { f with off := f.off + (f.data.drop f.off).length } rs
  | f, Reader.eofReader :: rs => pending f rs

/-- Number of reads that certainly drain a stream with a non-empty buffer. -/
def drainFuel (st : Stream) : Nat :=
  (pending st.file st.readers).length + st.readers.length + 1

/-- Drain a stream completely with a buffer of `n` bytes. -/
def drainAll (n : Nat) (st : Stream) : Option (List Byte × Stream) :=
  drain n (drainFuel st) st

/-! ## `bodyMultiReader` -/

/-- The four results of `bodyMultiReader`: content type, content length, body
(`none` is Go's `nil` reader) and error. -/
structure BodyResult where
  contentType : List Byte
  contentLength : Int
  body : Option Stream
  err : Option GoError
  deriving DecidableEq

/-- The local `boundary` of `bodyMultiReader`. -/
def boundary : List Byte := goStr "superCalifragilisticExpialiBoundary"

/-- The local `fileHeader` of `bodyMultiReader`. -/
def fileHeader : List Byte := goStr "Content-type: application/octet-stream"

/-- The local `fileFormat` of `bodyMultiReader`. -/
def fileFormat : List Byte :=
  goStr "--%s\r\nContent-Disposition: form-data; name=\"file\"; filename=\"%s\"\r\n%s\r\n\r\n"

/-- The local `filePart`: the header fragment rendered for a file name. -/
def filePart (name : List Byte) : List Byte :=
  Sprintf fileFormat [boundary, name, fileHeader]

/-- The local `bodyBottom`: the trailer fragment. -/
def bodyBottom : List Byte :=
  Sprintf (goStr "\r\n--%s--\r\n") [boundary]

/-- The function `bodyMultiReader(file)`; the message it writes to standard
error when `Stat` fails is left out. -/
def bodyMultiReader (file : File) : BodyResult :=
  let fileInfo := file.Stat.1
  match file.Stat.2 with
  | some err => ⟨goStr "", 0, none, some err⟩
  | none =>
    let body : Stream :=
      ⟨file, [stringsNewReader (filePart fileInfo.name), Reader.osFile,
              stringsNewReader bodyBottom]⟩
    let contentType := Sprintf (goStr "multipart/form-data; boundary=%s") [boundary]
    let contentLength :=
      wrapInt64 (wrapInt64 ((filePart fileInfo.name).length + fileInfo.size)
        + bodyBottom.length)
    ⟨contentType, contentLength, some body, none⟩


/-- Drain the body returned by `bodyMultiReader(file)` with a buffer of `n`
bytes; `none` when no body was returned. -/
def drainBody (n : Nat) (file : File) : Option (List Byte) :=
  match (bodyMultiReader file).body with
  | none => none
  | some st => (drainAll n st).map Prod.fst

/-- Successive reads with the given buffer sizes: the results of the reads in
order, and the stream afterwards. -/
def readMany : Stream → List Nat → List (List Byte × Option GoError) × Stream
  | st, [] => ([], st)
  | st, n :: ns =>
    let res := st.Read n
    let more := readMany res.2.2 ns
    ((res.1, res.2.1) :: more.1, more.2)

/-! ## The wire format in the words of the specification -/

/-- The header fragment as the specification writes it, for boundary `B` and
file name `F`. -/
def specHeader (B F : List Byte) : List Byte :=
  goStr "--" ++ B ++ goStr "\r\nContent-Disposition: form-data; name=\"file\"; filename=\""
    ++ F ++ goStr "\"\r\nContent-type: application/octet-stream\r\n\r\n"

/-- The trailer fragment as the specification writes it, for boundary `B`. -/
def specTrailer (B : List Byte) : List Byte :=
  goStr "\r\n--" ++ B ++ goStr "--\r\n"

/-- The blank-line terminator `CRLF CRLF`. -/
def crlfcrlf : List Byte := [13, 10, 13, 10]

/-- Offset of the first occurrence of `pat` in `s` (as `bytes.Index`). -/
def index (pat : List Byte) : List Byte → Option Nat
  | [] => if pat = [] then some 0 else none
  | c :: t =>
    if pat.isPrefixOf (c :: t) then some 0 else (index pat t).map (· + 1)

/-- Number of offsets of `s` at which `pat` occurs. -/
def countOcc (pat : List Byte) : List Byte → Nat
  | [] => if pat = [] then 1 else 0
  | c :: t => (if pat.isPrefixOf (c :: t) then 1 else 0) + countOcc pat t

/-! ## Command line and `main` -/

/-- The struct `commandLineOptions`. -/
structure commandLineOptions where
  hostname : String
  path : String
  port : Int
  deriving DecidableEq

/-- How `flag.Parse()` ends for the default flag set (`flag.ExitOnError`) with
the single flag `-port`: the flags were parsed, leaving the port and the
positional arguments; or help was asked for (`flag.ErrHelp`, exit status 0);
or parsing failed (exit status 2). -/
inductive FlagOutcome where
  | parsed (port : Int) (args : List String) : FlagOutcome
  | errHelp : FlagOutcome
  | failed : FlagOutcome
  deriving DecidableEq

/-- The loop in `FlagSet.parseOne` that splits `name=value` at the first `=`
after the first character. -/
def splitAtEq : List Char → List Char × Option (List Char)
  | [] => ([], none)
  | c :: cs =>
    if c = '=' then ([], some cs)
    else ((c :: (splitAtEq cs).1), (splitAtEq cs).2)

/-- One argument seen by `FlagSet.parseOne`. -/
inductive FlagArg where
  | positional : FlagArg
  | terminator : FlagArg
  | badSyntax : FlagArg
  | flag (name : List Char) (value : Option (List Char)) : FlagArg

/-- Classification of the next argument in `FlagSet.parseOne`: an argument
shorter than two bytes or not starting with `-` ends the flags, `--` ends them
and is consumed, an empty name or one starting with `-` or `=` is bad syntax,
anything else is a flag with an optional `=value`. -/
def classifyArg (s : List Char) : FlagArg :=
  match s with
  | '-' :: '-' :: [] => FlagArg.terminator
  | '-' :: '-' :: c :: cs =>
    if c = '-' ∨ c = '=' then FlagArg.badSyntax
    else FlagArg.flag (c :: (splitAtEq cs).1) (splitAtEq cs).2
  | '-' :: c :: cs =>
    if c = '=' then FlagArg.badSyntax
    else FlagArg.flag (c :: (splitAtEq cs).1) (splitAtEq cs).2
  | _ => FlagArg.positional

/-- The function `flag.Parse()` for a flag set whose only flag is the integer
flag `-port`; `parseInt` is `strconv.ParseInt(s, 0, strconv.IntSize)`. -/
def flagParse (parseInt : String → Option Int) : Int → List String → FlagOutcome
  | port, [] => FlagOutcome.parsed port []
  | port, s :: rest =>
    match classifyArg s.toList with
    | FlagArg.positional => FlagOutcome.parsed port (s :: rest)
    | FlagArg.terminator => FlagOutcome.parsed port rest
    | FlagArg.badSyntax => FlagOutcome.failed
    | FlagArg.flag name value =>
      if name = ['p', 'o', 'r', 't'] then
        match value with
        | some v =>
          match parseInt (String.mk v) with
          | some p => flagParse parseInt p rest
          | none => FlagOutcome.failed
        | none =>
          match rest with
          | [] => FlagOutcome.failed
          | v :: rest1 =>
            match parseInt v with
            | some p => flagParse parseInt p rest1
            | none => FlagOutcome.failed
      else if name = ['h', 'e', 'l', 'p'] ∨ name = ['h'] then FlagOutcome.errHelp
      else FlagOutcome.failed

/-- The request handed to the HTTP client: target, `Content-type` header,
declared content length and body. -/
structure Request where
  hostname : String
  port : Int
  contentType : List Byte
  contentLength : Int
  body : Option Stream

/-- Everything outside the program that one run depends on. -/
structure Env where
  /-- The command line after the program name. -/
  args : List String
  /-- The function `strconv.ParseInt(s, 0, strconv.IntSize)`. -/
  parseInt : String → Option Int
  /-- The function `os.Open(path)`. -/
  osOpen : String → Except GoError File
  /-- The error of `http.NewRequest` for the URL built from host and port. -/
  newRequest : String → Int → Option GoError
  /-- The function `client.Do(req)`: the response status code, or an error. -/
  clientDo : Request → Except GoError Int

/-- How `parseCommandLine` ends: the process exits, or options are returned. -/
inductive ParseResult where
  | exit (code : Nat) : ParseResult
  | options (o : commandLineOptions) : ParseResult

/-- The function `parseCommandLine()`. -/
def parseCommandLine (env : Env) : ParseResult :=
  match flagParse env.parseInt 8080 env.args with
  | FlagOutcome.errHelp => ParseResult.exit 0
  | FlagOutcome.failed => ParseResult.exit 2
  | FlagOutcome.parsed port args =>
    if port < 1 ∨ port > 65535 then ParseResult.exit 1
    else
      match args with
      | [path, hostname] => ParseResult.options ⟨hostname, path, port⟩
      | _ => ParseResult.exit 1

/-- What a run does to the file handle and the network, in order. -/
inductive Event where
  | fileOpened : Event
  | fileClosed : Event
  | closeOfNilFile : Event
  | requestSent : Event
  deriving DecidableEq

/-- A running `main`: the events so far and the calls registered by `defer`,
latest first. -/
structure Proc where
  trace : List Event
  deferred : List Event

/-- How the process ends. -/
structure Outcome where
  exitCode : Nat
  trace : List Event
  deriving DecidableEq

/-- The call `os.Exit(code)`: the program terminates immediately; deferred functions
are not run. -/
def osExit (code : Nat) (p : Proc) : Outcome :=
  ⟨code, p.trace⟩

/-- Return from `main`: the deferred calls run, then the process exits with
status 0. -/
def mainReturn (p : Proc) : Outcome :=
  ⟨0, p.trace ++ p.deferred⟩

/-- The function `main()`; what it prints is left out.  The URL is built from
host name and port, so the outcome of `http.NewRequest` is a function of these. -/
def main (env : Env) : Outcome :=
  match parseCommandLine env with
  | ParseResult.exit code => osExit code ⟨[], []⟩
  | ParseResult.options options =>
    match env.osOpen options.path with
    | Except.error _ => osExit 1 ⟨[], [Event.closeOfNilFile]⟩
    | Except.ok file =>
      let p : Proc := ⟨[Event.fileOpened], [Event.fileClosed]⟩
      let r := bodyMultiReader file
      match r.err with
      | some _ => osExit 1 p
      | none =>
        match env.newRequest options.hostname options.port with
        | some _ => osExit 1 p
        | none =>
          let req : Request :=
            ⟨options.hostname, options.port, r.contentType, r.contentLength, r.body⟩
          let p1 : Proc := { p with trace := p.trace ++ [Event.requestSent] }
          match env.clientDo req with
          | Except.error _ => osExit 1 p1
          | Except.ok status =>
            if status = 200 then mainReturn p1
            else osExit 1 p1

/-- A decimal reading of `strconv.ParseInt`, enough for the examples: digits
only. -/
def parseDecimal (s : String) : Option Int :=
  if s.toList ≠ [] ∧ s.toList.all Char.isDigit then
    some (s.toList.foldl (fun acc c => acc * 10 + (c.toNat - 48 : Nat)) (0 : Int))
  else none

/-! ## Concrete inputs -/

/-- A five-byte file `a.swu` with content `ABCDE`, freshly opened. -/
def fileABCDE : File := ⟨goStr "a.swu", 5, none, goStr "ABCDE", 0⟩

/-- The file `a.swu` with content `ABCDE` whose handle has already been read
up to offset 2. -/
def fileAtOffset2 : File := ⟨goStr "a.swu", 5, none, goStr "ABCDE", 2⟩

/-- A three-byte file `b.bin` whose handle is at offset 1. -/
def fileAtOffset1 : File := ⟨goStr "b.bin", 3, none, [1, 2, 3], 1⟩

/-- A sparse file `x` whose size is the largest `int64`; nothing is read. -/
def fileMaxSize : File := ⟨goStr "x", 2 ^ 63 - 1, none, [], 0⟩

/-- A file `x` of `2^63 - 1` zero bytes, freshly opened. -/
def fileHuge : File := ⟨goStr "x", 2 ^ 63 - 1, none, List.replicate (2 ^ 63 - 1) 0, 0⟩

/-- A handle on which `Stat` fails with error 9. -/
def fileStatFails : File := ⟨[], 0, some (GoError.errno 9), [], 0⟩

/-- A file named `é.bin` (the first letter takes two bytes) with no content. -/
def fileAccent : File := ⟨goStr "é.bin", 0, none, [], 0⟩

/-- The condition under which the upload counts as done, in the words of the
specification: the port is in 1..65535, exactly two positional arguments are
given, the file opens, `bodyMultiReader` succeeds, request construction
succeeds, and the transport returns a response whose status code is 200. -/
def uploadAccepted (env : Env) (port : Int) (args : List String) : Prop :=
  1 ≤ port ∧ port ≤ 65535 ∧
  ∃ path hostname, args = [path, hostname] ∧
    ∃ file, env.osOpen path = Except.ok file ∧
      (bodyMultiReader file).err = none ∧
      env.newRequest hostname port = none ∧
      env.clientDo ⟨hostname, port, (bodyMultiReader file).contentType,
        (bodyMultiReader file).contentLength, (bodyMultiReader file).body⟩ = Except.ok 200

/-- A run `goclient -port 8081 a.swu host` in which the file opens and the
server answers 200. -/
def envAccepted : Env :=
  ⟨["-port", "8081", "a.swu", "host"], parseDecimal, fun _ => Except.ok fileABCDE,
   fun _ _ => none, fun _ => Except.ok 200⟩

/-- A run `goclient -x a.swu host`: the flag `-x` is not defined. -/
def envUndefinedFlag : Env :=
  ⟨["-x", "a.swu", "host"], parseDecimal, fun _ => Except.ok fileABCDE,
   fun _ _ => none, fun _ => Except.ok 200⟩

/-- A run `goclient a.swu host` in which the file opens and the server
answers 500. -/
def envServerError : Env :=
  ⟨["a.swu", "host"], parseDecimal, fun _ => Except.ok fileABCDE,
   fun _ _ => none, fun _ => Except.ok 500⟩

set_option maxRecDepth 100000

/-! ## Reading one reader -/

theorem take_append_drop_length (n : Nat) (l : List Byte) :
    l.take n ++ l.drop (l.take n).length = l := by
  rcases Nat.le_total n l.length with h | h
  · rw [List.length_take, Nat.min_eq_left h, List.take_append_drop]
  · rw [List.take_of_length_le h, List.drop_length, List.append_nil]

theorem fileRead_eof (f : File) (n : Nat) (hn : 0 < n)
    (h : (f.Read n).2.1 = some GoError.EOF) :
    (f.Read n).1 = [] ∧ (f.Read n).2.2 = f ∧ f.data.drop f.off = [] := by
  unfold File.Read at h ⊢
  have hn0 : n ≠ 0 := Nat.pos_iff_ne_zero.mp hn
  simp only [hn0, if_false] at h ⊢
  by_cases hc : List.take n (List.drop f.off f.data) = []
  · simp only [hc, if_true]
    refine ⟨trivial, trivial, ?_⟩
    rcases List.take_eq_nil_iff.mp hc with h0 | h0
    · exact absurd h0 hn0
    · exact h0
  · simp [hc] at h

theorem fileRead_frame (f : File) (n : Nat) :
    (f.Read n).2.2.name = f.name ∧ (f.Read n).2.2.size = f.size ∧
    (f.Read n).2.2.statErr = f.statErr := by
  unfold File.Read
  by_cases hn0 : n = 0
  · simp [hn0]
  · by_cases hc : List.take n (List.drop f.off f.data) = []
    · simp [hn0, hc]
    · simp [hn0, hc]

theorem fileRead_ok (f : File) (n : Nat)
    (h : (f.Read n).2.1 ≠ some GoError.EOF) :
    (f.Read n).2.1 = none ∧ (f.Read n).2.2.data = f.data ∧
    (f.Read n).1 ++ f.data.drop (f.Read n).2.2.off = f.data.drop f.off ∧
    (f.Read n).2.2.off = f.off + (f.Read n).1.length ∧
    (0 < n → (f.Read n).1 ≠ []) := by
  unfold File.Read at h ⊢
  by_cases hn0 : n = 0
  · simp [hn0]
  · simp only [hn0, if_false] at h ⊢
    by_cases hc : List.take n (List.drop f.off f.data) = []
    · simp [hc] at h
    · simp only [hc, if_false]
      refine ⟨trivial, trivial, ?_, trivial, fun _ => hc⟩
      rw [← List.drop_drop]
      exact take_append_drop_length n _

/-- A single reader at its end: no bytes, nothing pending, nothing changed. -/
theorem readerRead_eof (r : Reader) (f : File) (n : Nat) (hn : 0 < n) (rs : List Reader)
    (h : (r.Read f n).2.1 = some GoError.EOF) :
    (r.Read f n).1 = [] ∧ (r.Read f n).2.2.2 = f ∧ pending f (r :: rs) = pending f rs := by
  cases r with
  | stringsReader s i =>
    unfold Reader.Read at h ⊢
    by_cases hi : i ≥ s.length
    · simp only [hi, if_true, pending]
      simp [List.drop_of_length_le hi]
    · simp [hi] at h
  | osFile =>
    simp only [Reader.Read] at h ⊢
    obtain ⟨h1, h2, h3⟩ := fileRead_eof f n hn h
    refine ⟨h1, h2, ?_⟩
    simp [pending, h3]
  | eofReader => simp [Reader.Read, pending]

/-- A single reader that delivers: the bytes read followed by what is then
pending is what was pending before, and at least one byte was read. -/
theorem readerRead_ok (r : Reader) (f : File) (n : Nat) (hn : 0 < n) (rs : List Reader)
    (h : (r.Read f n).2.1 ≠ some GoError.EOF) :
    (r.Read f n).2.1 = none ∧ (r.Read f n).1 ≠ [] ∧
    (r.Read f n).1 ++ pending (r.Read f n).2.2.2 ((r.Read f n).2.2.1 :: rs)
      = pending f (r :: rs) := by
  cases r with
  | stringsReader s i =>
    unfold Reader.Read at h ⊢
    by_cases hi : i ≥ s.length
    · simp [hi] at h
    · simp only [hi, if_false, pending]
      have hlt : i < s.length := Nat.lt_of_not_ge hi
      refine ⟨trivial, ?_, ?_⟩
      · intro hc
        rcases List.take_eq_nil_iff.mp hc with h0 | h0
        · omega
        · have := congrArg List.length h0
          simp at this
          omega
      · have key : List.drop (i + (List.take n (List.drop i s)).length) s
            = List.drop (List.take n (List.drop i s)).length (List.drop i s) := by
          rw [List.drop_drop, Nat.add_comm]
        rw [← List.append_assoc, key, take_append_drop_length]
  | osFile =>
    simp only [Reader.Read] at h ⊢
    obtain ⟨h1, h2, h3, h4, h5⟩ := fileRead_ok f n h
    refine ⟨h1, h5 hn, ?_⟩
    simp only [pending, h2]
    rw [← List.append_assoc, h3]
    have h6 := congrArg List.length h3
    simp only [List.length_append] at h6
    have h7 : (f.Read n).2.2.off + (List.drop (f.Read n).2.2.off f.data).length
        = f.off + (List.drop f.off f.data).length := by omega
    obtain ⟨g1, g2, g3⟩ := fileRead_frame f n
    rw [g1, g2, g3, h7]
  | eofReader => simp [Reader.Read] at h

/-! ## Reading and draining the composite stream -/

/-- One read of the composite stream with a non-empty buffer: the bytes read
followed by what is pending afterwards is what was pending before; the read
either reports `io.EOF` with no bytes and no reader left, or delivers at least
one byte without error. -/
theorem multiRead_spec (n : Nat) (hn : 0 < n) (rs : List Reader) (f : File) :
    (multiRead n f rs).1 ++ pending (multiRead n f rs).2.2.file (multiRead n f rs).2.2.readers
      = pending f rs ∧
    (((multiRead n f rs).2.1 = some GoError.EOF ∧ (multiRead n f rs).1 = [] ∧
        (multiRead n f rs).2.2.readers = []) ∨
     ((multiRead n f rs).2.1 = none ∧ (multiRead n f rs).1 ≠ [] ∧
        (multiRead n f rs).2.2.readers.length ≤ rs.length)) := by
  induction rs generalizing f with
  | nil => simp [multiRead, pending]
  | cons r rs ih =>
    by_cases herr : (r.Read f n).2.1 = some GoError.EOF
    · obtain ⟨h1, h2, h3⟩ := readerRead_eof r f n hn rs herr
      have hstep : multiRead n f (r :: rs) = multiRead n f rs := by
        simp [multiRead, herr, h1, h2]
      rw [hstep, h3]
      obtain ⟨i1, i2⟩ := ih f
      refine ⟨i1, ?_⟩
      rcases i2 with i2 | ⟨i3, i4, i5⟩
      · exact Or.inl i2
      · exact Or.inr ⟨i3, i4, Nat.le_succ_of_le i5⟩
    · obtain ⟨h1, h2, h3⟩ := readerRead_ok r f n hn rs herr
      have hstep : multiRead n f (r :: rs)
          = ((r.Read f n).1, (r.Read f n).2.1, ⟨(r.Read f n).2.2.2, (r.Read f n).2.2.1 :: rs⟩) := by
        simp [multiRead, herr]
      rw [hstep]
      exact ⟨h3, Or.inr ⟨h1, h2, Nat.le_refl _⟩⟩

/-- With a non-empty buffer and enough fuel, draining returns exactly the
pending bytes and leaves the stream without readers. -/
theorem drain_pending (n : Nat) (hn : 0 < n) (fuel : Nat) (st : Stream)
    (hfuel : drainFuel st ≤ fuel) :
    ∃ st1, drain n fuel st = some (pending st.file st.readers, st1) ∧ st1.readers = [] := by
  induction fuel generalizing st with
  | zero => simp [drainFuel] at hfuel
  | succ fuel ih =>
    obtain ⟨h1, h2⟩ := multiRead_spec n hn st.readers st.file
    rcases h2 with ⟨e1, e2, e3⟩ | ⟨e1, e2, e3⟩
    · refine ⟨(multiRead n st.file st.readers).2.2, ?_, e3⟩
      rw [e2, e3] at h1
      simp only [drain, Stream.Read, e1, e2]
      rw [← h1]
      simp [pending]
    · have hlen := congrArg List.length h1
      simp only [List.length_append] at hlen
      have hpos : 0 < (multiRead n st.file st.readers).1.length :=
        List.length_pos.mpr e2
      have hf : drainFuel (multiRead n st.file st.readers).2.2 ≤ fuel := by
        unfold drainFuel at hfuel ⊢
        omega
      obtain ⟨st1, d1, d2⟩ := ih _ hf
      refine ⟨st1, ?_, d2⟩
      simp only [drain, Stream.Read, e1, d1]
      rw [h1]

/-- Draining always terminates with a result when the buffer is non-empty. -/
theorem drainAll_pending (n : Nat) (hn : 0 < n) (st : Stream) :
    ∃ st1, drainAll n st = some (pending st.file st.readers, st1) ∧ st1.readers = [] :=
  drain_pending n hn (drainFuel st) st (Nat.le_refl _)

/-! ## The rendered fragments -/

theorem filePart_eq (F : List Byte) : filePart F = specHeader boundary F := by
  simp only [specHeader, List.append_assoc]
  rfl

theorem bodyBottom_eq : bodyBottom = specTrailer boundary := by
  simp only [specTrailer, List.append_assoc]
  rfl

theorem contentType_eq :
    Sprintf (goStr "multipart/form-data; boundary=%s") [boundary]
      = goStr "multipart/form-data; boundary=" ++ boundary := by
  rfl

theorem filePart_length (F : List Byte) : (filePart F).length = 139 + F.length := by
  rw [filePart_eq]
  simp only [specHeader, List.length_append]
  have h1 : (goStr "--").length = 2 := by decide
  have h2 : boundary.length = 35 := by decide
  have h3 : (goStr "\r\nContent-Disposition: form-data; name=\"file\"; filename=\"").length = 57 := by decide
  have h4 : (goStr "\"\r\nContent-type: application/octet-stream\r\n\r\n").length = 45 := by decide
  omega

theorem bodyBottom_length : bodyBottom.length = 43 := by decide

/-! ## `bodyMultiReader` on a handle whose `Stat` succeeds -/

theorem wrapInt64_id (x : Int) (h0 : 0 ≤ x) (h1 : x < 2 ^ 63) : wrapInt64 x = x := by
  unfold wrapInt64
  rw [Int.emod_eq_of_lt (by omega) (by omega)]
  omega

theorem bodyMultiReader_ok (f : File) (hs : f.statErr = none) :
    bodyMultiReader f =
      ⟨goStr "multipart/form-data; boundary=" ++ boundary,
       wrapInt64 (wrapInt64 ((filePart f.name).length + f.size) + bodyBottom.length),
       some ⟨f, [stringsNewReader (filePart f.name), Reader.osFile,
                 stringsNewReader bodyBottom]⟩,
       none⟩ := by
  simp only [bodyMultiReader, File.Stat, hs]
  rfl

theorem bodyMultiReader_fail (f : File) (e : GoError) (hs : f.statErr = some e) :
    bodyMultiReader f = ⟨[], 0, none, some e⟩ := by
  simp only [bodyMultiReader, File.Stat, hs]
  rfl

/-- Draining the body yields the rendered header, the file from the handle's
position to its end, and the rendered trailer. -/
theorem drainBody_eq (f : File) (hs : f.statErr = none) (n : Nat) (hn : 0 < n) :
    drainBody n f = some (filePart f.name ++ f.data.drop f.off ++ bodyBottom) := by
  unfold drainBody
  rw [bodyMultiReader_ok f hs]
  obtain ⟨st1, h1, _⟩ := drainAll_pending n hn
    ⟨f, [stringsNewReader (filePart f.name), Reader.osFile, stringsNewReader bodyBottom]⟩
  simp only [h1, Option.map_some']
  simp [pending, stringsNewReader]

theorem contentLength_fits (f : File) (hs : f.statErr = none) (h0 : 0 ≤ f.size)
    (hfit : ((filePart f.name).length : Int) + f.size + bodyBottom.length < 2 ^ 63) :
    (bodyMultiReader f).contentLength
      = (filePart f.name).length + f.size + bodyBottom.length := by
  rw [bodyMultiReader_ok f hs]
  simp only
  rw [wrapInt64_id ((filePart f.name).length + f.size) (by omega) (by omega)]
  rw [wrapInt64_id _ (by omega) hfit]

/-- A reader that reports `io.EOF` delivers no bytes, whatever the buffer. -/
theorem readerRead_eof_nil (r : Reader) (f : File) (n : Nat)
    (h : (r.Read f n).2.1 = some GoError.EOF) : (r.Read f n).1 = [] := by
  cases r with
  | stringsReader s i =>
    unfold Reader.Read at h ⊢
    by_cases hi : i ≥ s.length
    · simp [hi]
    · simp [hi] at h
  | osFile =>
    simp only [Reader.Read, File.Read] at h ⊢
    by_cases hn0 : n = 0
    · simp [hn0] at h
    · by_cases hc : List.take n (List.drop f.off f.data) = []
      · simp [hn0, hc]
      · simp [hn0, hc] at h
  | eofReader => simp [Reader.Read]

/-- The composite stream reports `io.EOF` only together with no bytes and
only once no reader is left, whatever the buffer. -/
theorem multiRead_eof (n : Nat) (rs : List Reader) (f : File)
    (h : (multiRead n f rs).2.1 = some GoError.EOF) :
    (multiRead n f rs).1 = [] ∧ (multiRead n f rs).2.2.readers = [] := by
  induction rs generalizing f with
  | nil => simp [multiRead]
  | cons r rs ih =>
    by_cases herr : (r.Read f n).2.1 = some GoError.EOF
    · have hnil := readerRead_eof_nil r f n herr
      have hstep : multiRead n f (r :: rs) = multiRead n (r.Read f n).2.2.2 rs := by
        simp [multiRead, herr, hnil]
      rw [hstep] at h ⊢
      exact ih _ h
    · have hstep : multiRead n f (r :: rs)
          = ((r.Read f n).1, (r.Read f n).2.1, ⟨(r.Read f n).2.2.2, (r.Read f n).2.2.1 :: rs⟩) := by
        simp [multiRead, herr]
      rw [hstep] at h
      exact absurd h herr

/-- A stream without readers answers every read with no bytes and `io.EOF`. -/
theorem readMany_drained (sizes : List Nat) (st : Stream) (h : st.readers = []) :
    (readMany st sizes).1 = List.replicate sizes.length ([], some GoError.EOF) := by
  induction sizes generalizing st with
  | nil => rfl
  | cons m ms ih =>
    have hr : st.Read m = ([], some GoError.EOF, ⟨st.file, []⟩) := by
      simp [Stream.Read, h, multiRead]
    simp only [readMany, hr, List.length_cons, List.replicate_succ]
    rw [ih ⟨st.file, []⟩ rfl]

/-! ## Occurrences of the blank-line terminator -/

theorem crlfcrlf_not_at (c : Byte) (t : List Byte) (hc : c ≠ 13) :
    crlfcrlf.isPrefixOf (c :: t) = false := by
  have h : ((13 : Byte) == c) = false := by
    rw [beq_eq_false_iff_ne]
    exact fun h => hc h.symm
  simp [crlfcrlf, List.isPrefixOf, h]

/-- Bytes without a carriage return contain no occurrence: they only shift
the first occurrence and leave the count unchanged. -/
theorem skip_noCR (A X : List Byte) (hA : 13 ∉ A) :
    index crlfcrlf (A ++ X) = (index crlfcrlf X).map (· + A.length) ∧
    countOcc crlfcrlf (A ++ X) = countOcc crlfcrlf X := by
  induction A with
  | nil => simp
  | cons c A ih =>
    have hc : c ≠ 13 := fun h => hA (by simp [h])
    have hA1 : 13 ∉ A := fun h => hA (List.mem_cons_of_mem _ h)
    obtain ⟨i1, i2⟩ := ih hA1
    constructor
    · have e : index crlfcrlf (c :: (A ++ X)) = (index crlfcrlf (A ++ X)).map (· + 1) := by
        simp [index, crlfcrlf_not_at c _ hc]
      rw [List.cons_append, e, i1]
      cases index crlfcrlf X with
      | none => rfl
      | some v => simp [Nat.add_assoc]
    · simp only [List.cons_append, countOcc, crlfcrlf_not_at c _ hc]
      simpa using i2

/-- A single CRLF followed by a byte that is not a carriage return holds no
occurrence either. -/
theorem skip_crlf (c : Byte) (X : List Byte) (hc : c ≠ 13) :
    index crlfcrlf (13 :: 10 :: c :: X) = (index crlfcrlf (c :: X)).map (· + 2) ∧
    countOcc crlfcrlf (13 :: 10 :: c :: X) = countOcc crlfcrlf (c :: X) := by
  have h : ((13 : Byte) == c) = false := by
    rw [beq_eq_false_iff_ne]
    exact fun h => hc h.symm
  constructor
  · simp [index, crlfcrlf, List.isPrefixOf, h, Option.map_map]
  · simp [countOcc, crlfcrlf, List.isPrefixOf, h]

/-- The header fragment cut at its carriage returns. -/
theorem filePart_split (F : List Byte) :
    filePart F = (goStr "--" ++ boundary) ++ (13 :: 10 ::
      (goStr "Content-Disposition: form-data; name=\"file\"; filename=\"" ++ (F ++
        (goStr "\"" ++ (13 :: 10 :: (fileHeader ++ crlfcrlf)))))) := by
  rfl

theorem skip_crlf_noCR (A X : List Byte) (hA : 13 ∉ A) (hne : A ≠ []) :
    index crlfcrlf (13 :: 10 :: (A ++ X)) = (index crlfcrlf X).map (· + (A.length + 2)) ∧
    countOcc crlfcrlf (13 :: 10 :: (A ++ X)) = countOcc crlfcrlf X := by
  cases A with
  | nil => exact absurd rfl hne
  | cons c A =>
    have hc : c ≠ 13 := fun h => hA (by simp [h])
    obtain ⟨s1, s2⟩ := skip_crlf c (A ++ X) hc
    obtain ⟨t1, t2⟩ := skip_noCR (c :: A) X hA
    rw [List.cons_append] at t1 t2 ⊢
    rw [s1, s2, t1, t2]
    refine ⟨?_, rfl⟩
    cases index crlfcrlf X with
    | none => rfl
    | some v => simp [Nat.add_assoc]

theorem index_crlfcrlf_head (Y : List Byte) :
    index crlfcrlf (crlfcrlf ++ Y) = some 0 := by
  simp [index, crlfcrlf, List.isPrefixOf]

/-- With a file name free of carriage returns, the first blank-line terminator
of the header followed by anything is the header's own, and the header holds
exactly one. -/
theorem filePart_terminator (F Y : List Byte) (hF : 13 ∉ F) :
    index crlfcrlf (filePart F ++ Y) = some ((filePart F).length - 4) ∧
    countOcc crlfcrlf (filePart F) = 1 := by
  have hA0 : 13 ∉ goStr "--" := by decide
  have hA1 : 13 ∉ boundary := by decide
  have hA2 : 13 ∉ goStr "Content-Disposition: form-data; name=\"file\"; filename=\"" := by
    decide
  have hA2ne : goStr "Content-Disposition: form-data; name=\"file\"; filename=\"" ≠ [] := by
    decide
  have hA3 : 13 ∉ goStr "\"" := by decide
  have hA4 : 13 ∉ fileHeader := by decide
  have hA4ne : fileHeader ≠ [] := by decide
  have hl0 : (goStr "--").length = 2 := by decide
  have hl1 : boundary.length = 35 := by decide
  have hl2 : (goStr "Content-Disposition: form-data; name=\"file\"; filename=\"").length
      = 55 := by decide
  have hl3 : (goStr "\"").length = 1 := by decide
  have hl4 : fileHeader.length = 38 := by decide
  constructor
  · rw [filePart_length, filePart_split]
    simp only [List.append_assoc, List.cons_append]
    rw [(skip_noCR _ _ hA0).1, (skip_noCR _ _ hA1).1, (skip_crlf_noCR _ _ hA2 hA2ne).1,
      (skip_noCR _ _ hF).1, (skip_noCR _ _ hA3).1, (skip_crlf_noCR _ _ hA4 hA4ne).1,
      index_crlfcrlf_head, hl0, hl1, hl2, hl3, hl4]
    simp only [Option.map_some', Option.some.injEq]
    omega
  · rw [filePart_split]
    simp only [List.append_assoc, List.cons_append]
    rw [(skip_noCR _ _ hA0).2, (skip_noCR _ _ hA1).2, (skip_crlf_noCR _ _ hA2 hA2ne).2, (skip_noCR _ _ hF).2,
      (skip_noCR _ _ hA3).2, (skip_crlf_noCR _ _ hA4 hA4ne).2]
    decide

theorem filePart_ends_with_terminator (F : List Byte) :
    (filePart F).drop ((filePart F).length - 4) = crlfcrlf := by
  have h : filePart F = (goStr "--" ++ boundary ++ (13 :: 10 ::
      (goStr "Content-Disposition: form-data; name=\"file\"; filename=\"" ++ (F ++
        (goStr "\"" ++ (13 :: 10 :: fileHeader)))))) ++ crlfcrlf := by
    rw [filePart_split]
    simp only [List.append_assoc, List.cons_append]
  rw [h, List.length_append]
  exact List.drop_left' (by simp [crlfcrlf])

/-! ## Deferred calls and `os.Exit` -/

/-- Whenever `main` ends with a non-zero status, the handle was not closed by
the program: every such path leaves through `os.Exit`. -/
theorem main_failure_never_closes (env : Env) (h : (main env).exitCode ≠ 0) :
    Event.fileClosed ∉ (main env).trace := by
  unfold main at h ⊢
  split
  · simp [osExit]
  · split
    · simp [osExit]
    · simp only
      split
      · simp [osExit]
      · split
        · simp [osExit]
        · split
          · simp [osExit]
          · split
            · rename_i hst
              simp [*, mainReturn] at h
            · simp [osExit]

/-! ## The claims -/

/-- C1, as stated, fails: for the file `a.swu` with content `ABCDE` whose
handle is at offset 2, `Stat` succeeds but the drained stream is not header,
`ABCDE`, trailer: the first two bytes of the content are missing. -/
theorem C1_counterexample :
    fileAtOffset2.statErr = none ∧
    drainBody 4 fileAtOffset2 ≠
      some (specHeader boundary fileAtOffset2.name ++ fileAtOffset2.data
        ++ specTrailer boundary) ∧
    drainBody 4 fileAtOffset2 =
      some (specHeader boundary fileAtOffset2.name ++ goStr "CDE"
        ++ specTrailer boundary) := by
  decide

/-- C1, amended: for every file name and every content, when `Stat` succeeds
and the handle is at offset 0, fully draining the stream returned by
`bodyMultiReader` with any non-empty buffer yields exactly the header of the
wire format, then the content unmodified, then the trailer, and nothing else. -/
theorem C1_drained_body_is_wire_format (f : File) (hs : f.statErr = none)
    (hoff : f.off = 0) (n : Nat) (hn : 0 < n) :
    drainBody n f =
      some (specHeader boundary f.name ++ f.data ++ specTrailer boundary) := by
  rw [drainBody_eq f hs n hn, hoff, List.drop_zero, filePart_eq, bodyBottom_eq]

/-- Witness of C1: the five-byte file `ABCDE`, drained three bytes at a time. -/
theorem C1_drained_body_is_wire_format_witness :
    drainBody 3 fileABCDE =
      some (specHeader boundary (goStr "a.swu") ++ goStr "ABCDE" ++ specTrailer boundary) :=
  C1_drained_body_is_wire_format fileABCDE (by decide) (by decide) 3 (by decide)

/-- C2, as stated, fails: the three-byte file `b.bin` is open and readable,
`Stat` succeeds and reports its true size, which never changes, but its handle
is at offset 1; the drained stream has one byte less than `contentLength`. -/
theorem C2_counterexample :
    fileAtOffset1.statErr = none ∧
    fileAtOffset1.size = fileAtOffset1.data.length ∧
    (bodyMultiReader fileAtOffset1).contentLength = 190 ∧
    (drainBody 8 fileAtOffset1).map List.length = some 189 := by
  decide

/-- C2, amended: for every open, readable file handle on which `Stat`
succeeds, whose size does not change, whose read position is at offset 0 and
for which header, file size and trailer together fit in an `int64`, the number
of bytes produced by fully draining the stream equals the `contentLength`
returned by the same call. -/
theorem C2_drained_length_is_contentLength (f : File) (hs : f.statErr = none)
    (hsize : f.size = f.data.length) (hoff : f.off = 0)
    (hfit : (filePart f.name).length + f.data.length + bodyBottom.length < 2 ^ 63)
    (n : Nat) (hn : 0 < n) :
    ∃ body, drainBody n f = some body ∧
      (body.length : Int) = (bodyMultiReader f).contentLength := by
  refine ⟨_, drainBody_eq f hs n hn, ?_⟩
  have hfit1 : ((filePart f.name).length : Int) + f.size + bodyBottom.length < 2 ^ 63 := by
    rw [hsize]
    exact_mod_cast hfit
  rw [contentLength_fits f hs (by rw [hsize]; exact Int.natCast_nonneg _) hfit1, hsize, hoff]
  simp only [List.drop_zero, List.length_append]
  push_cast
  ring

/-- Witness of C2: the five-byte file `ABCDE`, drained three bytes at a time. -/
theorem C2_drained_length_is_contentLength_witness :
    ∃ body, drainBody 3 fileABCDE = some body ∧
      (body.length : Int) = (bodyMultiReader fileABCDE).contentLength :=
  C2_drained_length_is_contentLength fileABCDE (by decide) (by decide) (by decide)
    (by decide) 3 (by decide)

/-- C3, as stated, fails: for a file of size `2^63 - 1` named `x` the sum of
header length, file size and trailer length does not fit in an `int64`; the
returned `contentLength` has wrapped around and is negative. -/
theorem C3_counterexample :
    fileMaxSize.statErr = none ∧ 0 ≤ fileMaxSize.size ∧ fileMaxSize.size < 2 ^ 63 ∧
    (bodyMultiReader fileMaxSize).contentLength ≠
      (specHeader boundary fileMaxSize.name).length + fileMaxSize.size
        + (specTrailer boundary).length ∧
    (bodyMultiReader fileMaxSize).contentLength = 182 - 2 ^ 63 := by
  decide

/-- C3, amended: for every file size `N >= 0` and every file name such that
header length plus `N` plus trailer length is at most `2^63 - 1`, the returned
`contentLength` equals the byte length of the rendered header plus `N` plus
the byte length of the rendered trailer, the lengths being counts of bytes;
for `N = 0` it is the header length plus the trailer length. -/
theorem C3_contentLength_is_sum (f : File) (hs : f.statErr = none) (h0 : 0 ≤ f.size)
    (hfit : ((specHeader boundary f.name).length : Int) + f.size
      + (specTrailer boundary).length < 2 ^ 63) :
    (bodyMultiReader f).contentLength
      = (specHeader boundary f.name).length + f.size + (specTrailer boundary).length ∧
    (f.size = 0 → (bodyMultiReader f).contentLength
      = ((specHeader boundary f.name).length + (specTrailer boundary).length : Nat)) := by
  rw [← filePart_eq, ← bodyBottom_eq] at hfit ⊢
  have h := contentLength_fits f hs h0 hfit
  refine ⟨h, fun hz => ?_⟩
  rw [h, hz]
  push_cast
  ring

/-- Witness of C3: an empty file named `é.bin`; the name counts six bytes for
its five characters, and the content length is 145 + 0 + 43. -/
theorem C3_contentLength_is_sum_witness :
    (goStr "é.bin").length = 6 ∧
    (bodyMultiReader fileAccent).contentLength = 188 ∧
    (bodyMultiReader fileAccent).contentLength
      = (specHeader boundary fileAccent.name).length + fileAccent.size
        + (specTrailer boundary).length :=
  ⟨by decide, by decide,
   (C3_contentLength_is_sum fileAccent (by decide) (by decide) (by decide)).1⟩
/-- C4: for every successful call of `bodyMultiReader`, the returned content
type is `multipart/form-data; boundary=` followed by the boundary token, and
the drained body begins with `--`, that same token and CRLF, and ends with
CRLF, `--`, that same token, `--` and CRLF. -/
theorem C4_boundary_token_shared (f : File) (hs : (bodyMultiReader f).err = none)
    (n : Nat) (hn : 0 < n) :
    ∃ B body,
      (bodyMultiReader f).contentType = goStr "multipart/form-data; boundary=" ++ B ∧
      drainBody n f = some body ∧
      (goStr "--" ++ B ++ goStr "\r\n") <+: body ∧
      (goStr "\r\n--" ++ B ++ goStr "--\r\n") <:+ body := by
  have hstat : f.statErr = none := by
    cases hse : f.statErr with
    | none => rfl
    | some e => rw [bodyMultiReader_fail f e hse] at hs; cases hs
  refine ⟨boundary, _, ?_, drainBody_eq f hstat n hn, ?_, ?_⟩
  · rw [bodyMultiReader_ok f hstat]
  · rw [filePart_eq]
    simp only [specHeader, List.append_assoc]
    exact ⟨_, (List.append_assoc _ _ _).symm.trans rfl⟩
  · rw [bodyBottom_eq]
    exact ⟨_, rfl⟩

/-- Witness of C4: the five-byte file `ABCDE`, drained three bytes at a time. -/
theorem C4_boundary_token_shared_witness :
    ∃ B body,
      (bodyMultiReader fileABCDE).contentType = goStr "multipart/form-data; boundary=" ++ B ∧
      drainBody 3 fileABCDE = some body ∧
      (goStr "--" ++ B ++ goStr "\r\n") <+: body ∧
      (goStr "\r\n--" ++ B ++ goStr "--\r\n") <:+ body :=
  C4_boundary_token_shared fileABCDE (by decide) 3 (by decide)

/-- C5: `bodyMultiReader` fails if and only if `Stat` on the handle fails;
when it fails, its error is the error of `Stat`, the content type is the empty
string, the content length is 0 and the stream is absent. -/
theorem C5_fails_iff_stat_fails (f : File) :
    ((bodyMultiReader f).err ≠ none ↔ f.Stat.2 ≠ none) ∧
    ((bodyMultiReader f).err ≠ none →
      (bodyMultiReader f).err = f.Stat.2 ∧
      (bodyMultiReader f).contentType = goStr "" ∧
      (bodyMultiReader f).contentLength = 0 ∧
      (bodyMultiReader f).body = none) := by
  cases hse : f.statErr with
  | none =>
    rw [bodyMultiReader_ok f hse]
    simp [File.Stat, hse]
  | some e =>
    rw [bodyMultiReader_fail f e hse]
    simp [File.Stat, hse]
    rfl

/-- Witness of C5: a handle on which `Stat` fails with error 9. -/
theorem C5_fails_iff_stat_fails_witness :
    (bodyMultiReader fileStatFails).err = some (GoError.errno 9) ∧
    (bodyMultiReader fileStatFails).contentType = [] ∧
    (bodyMultiReader fileStatFails).contentLength = 0 ∧
    (bodyMultiReader fileStatFails).body = none :=
  (C5_fails_iff_stat_fails fileStatFails).2 (by decide)

/-- C6: once the stream returned by `bodyMultiReader` has been fully drained,
every later read, with any buffer size and however many reads are made, returns
zero bytes together with `io.EOF`; the same holds after any sequence of reads
at the end of which a read has reported `io.EOF`. -/
theorem C6_reads_after_drain_are_eof (f : File) (hs : f.statErr = none)
    (n : Nat) (hn : 0 < n) (sizes : List Nat) :
    ∃ st body st1,
      (bodyMultiReader f).body = some st ∧
      drainAll n st = some (body, st1) ∧
      (readMany st1 sizes).1 = List.replicate sizes.length ([], some GoError.EOF) ∧
      ∀ (earlier : List Nat) (m : Nat),
        ((readMany st earlier).2.Read m).2.1 = some GoError.EOF →
        (readMany ((readMany st earlier).2.Read m).2.2 sizes).1
          = List.replicate sizes.length ([], some GoError.EOF) := by
  rw [bodyMultiReader_ok f hs]
  obtain ⟨st1, h1, h2⟩ := drainAll_pending n hn
    ⟨f, [stringsNewReader (filePart f.name), Reader.osFile, stringsNewReader bodyBottom]⟩
  refine ⟨_, _, st1, rfl, h1, readMany_drained sizes st1 h2, fun earlier m hm => ?_⟩
  exact readMany_drained sizes _ (multiRead_eof m _ _ hm).2

/-- Witness of C6: after draining the file `ABCDE`, four further reads with
buffers of 1, 0, 512 and 7 bytes all return no bytes and `io.EOF`. -/
theorem C6_reads_after_drain_are_eof_witness :
    ∃ st body st1,
      (bodyMultiReader fileABCDE).body = some st ∧
      drainAll 3 st = some (body, st1) ∧
      (readMany st1 [1, 0, 512, 7]).1 = List.replicate 4 ([], some GoError.EOF) := by
  obtain ⟨st, body, st1, h1, h2, h3, _⟩ :=
    C6_reads_after_drain_are_eof fileABCDE (by decide) 3 (by decide) [1, 0, 512, 7]
  exact ⟨st, body, st1, h1, h2, h3⟩

/-- C7, as stated, fails: for the command line `-x a.swu host` the flag `-x`
is not defined, `flag.Parse` ends the process, and the exit status is 2, which
is neither 0 nor 1. -/
theorem C7_counterexample :
    (main envUndefinedFlag).exitCode = 2 ∧
    (main envUndefinedFlag).exitCode ≠ 0 ∧ (main envUndefinedFlag).exitCode ≠ 1 := by
  decide

/-- C7, amended: when `flag.Parse` accepts the command line, the program exits
with status 0 if and only if the port is in 1..65535, exactly two positional
arguments are given, the file opens, `bodyMultiReader` succeeds, request
construction succeeds and the transport returns a response with status code
200, and in every other such case it exits with status 1; when `flag.Parse`
rejects the command line it exits with status 2, and with status 0 when help
is asked for. -/
theorem C7_exit_status (env : Env) :
    (flagParse env.parseInt 8080 env.args = FlagOutcome.errHelp → (main env).exitCode = 0) ∧
    (flagParse env.parseInt 8080 env.args = FlagOutcome.failed → (main env).exitCode = 2) ∧
    (∀ port args, flagParse env.parseInt 8080 env.args = FlagOutcome.parsed port args →
      ((main env).exitCode = 0 ↔ uploadAccepted env port args) ∧
      (¬ uploadAccepted env port args → (main env).exitCode = 1)) := by
  refine ⟨fun h => ?_, fun h => ?_, fun port args h => ?_⟩
  · simp [main, parseCommandLine, h, osExit]
  · simp [main, parseCommandLine, h, osExit]
  · have key : ((main env).exitCode = 0 ↔ uploadAccepted env port args) ∧
        ((main env).exitCode = 0 ∨ (main env).exitCode = 1) := by
      by_cases hp : port < 1 ∨ port > 65535
      · have hm : (main env).exitCode = 1 := by
          simp [main, parseCommandLine, h, hp, osExit]
        refine ⟨⟨fun h0 => by omega, fun ⟨a1, a2, _⟩ => by omega⟩, Or.inr hm⟩
      · have hshape : (∃ path hostname, args = [path, hostname]) ∨
            ((∀ path hostname, args ≠ [path, hostname]) ∧ (main env).exitCode = 1) := by
          match args, h with
          | [], h => exact Or.inr ⟨by simp, by simp [main, parseCommandLine, h, hp, osExit]⟩
          | [_], h => exact Or.inr ⟨by simp, by simp [main, parseCommandLine, h, hp, osExit]⟩
          | [a, b], _ => exact Or.inl ⟨a, b, rfl⟩
          | _ :: _ :: _ :: _, h =>
            exact Or.inr ⟨by simp, by simp [main, parseCommandLine, h, hp, osExit]⟩
        rcases hshape with ⟨path, hostname, rfl⟩ | ⟨hne, hm⟩
        · have hport : 1 ≤ port ∧ port ≤ 65535 := by omega
          cases hopen : env.osOpen path with
          | error e =>
            have hm : (main env).exitCode = 1 := by
              simp [main, parseCommandLine, h, hp, hopen, osExit]
            refine ⟨⟨fun h0 => by omega, ?_⟩, Or.inr hm⟩
            rintro ⟨_, _, p, q, hpq, file, ho, _⟩
            simp only [List.cons.injEq, and_true] at hpq
            rw [← hpq.1, hopen] at ho
            cases ho
          | ok file =>
            cases herr : (bodyMultiReader file).err with
            | some e =>
              have hm : (main env).exitCode = 1 := by
                simp [main, parseCommandLine, h, hp, hopen, herr, osExit]
              refine ⟨⟨fun h0 => by omega, ?_⟩, Or.inr hm⟩
              rintro ⟨_, _, p, q, hpq, file1, ho, he, _⟩
              simp only [List.cons.injEq, and_true] at hpq
              rw [← hpq.1, hopen] at ho
              cases ho
              rw [herr] at he
              cases he
            | none =>
              cases hreq : env.newRequest hostname port with
              | some e =>
                have hm : (main env).exitCode = 1 := by
                  simp [main, parseCommandLine, h, hp, hopen, herr, hreq, osExit]
                refine ⟨⟨fun h0 => by omega, ?_⟩, Or.inr hm⟩
                rintro ⟨_, _, p, q, hpq, file1, ho, he, hr, _⟩
                simp only [List.cons.injEq, and_true] at hpq
                rw [← hpq.2, hreq] at hr
                cases hr
              | none =>
                cases hdo : env.clientDo ⟨hostname, port, (bodyMultiReader file).contentType,
                    (bodyMultiReader file).contentLength, (bodyMultiReader file).body⟩ with
                | error e =>
                  have hm : (main env).exitCode = 1 := by
                    simp [main, parseCommandLine, h, hp, hopen, herr, hreq, hdo, osExit]
                  refine ⟨⟨fun h0 => by omega, ?_⟩, Or.inr hm⟩
                  rintro ⟨_, _, p, q, hpq, file1, ho, he, hr, hd⟩
                  simp only [List.cons.injEq, and_true] at hpq
                  rw [← hpq.1, hopen] at ho
                  cases ho
                  rw [← hpq.2, hdo] at hd
                  cases hd
                | ok status =>
                  by_cases hst : status = 200
                  · have hm : (main env).exitCode = 0 := by
                      simp [main, parseCommandLine, h, hp, hopen, herr, hreq, hdo, hst,
                        mainReturn]
                    refine ⟨⟨fun _ => ?_, fun _ => hm⟩, Or.inl hm⟩
                    exact ⟨hport.1, hport.2, path, hostname, rfl, file, hopen, herr, hreq,
                      by rw [hdo, hst]⟩
                  · have hm : (main env).exitCode = 1 := by
                      simp [main, parseCommandLine, h, hp, hopen, herr, hreq, hdo, hst,
                        osExit]
                    refine ⟨⟨fun h0 => by omega, ?_⟩, Or.inr hm⟩
                    rintro ⟨_, _, p, q, hpq, file1, ho, he, hr, hd⟩
                    simp only [List.cons.injEq, and_true] at hpq
                    rw [← hpq.1, hopen] at ho
                    cases ho
                    rw [← hpq.2, hdo] at hd
                    cases hd
                    exact (hst rfl).elim
        · refine ⟨⟨fun h0 => by omega, ?_⟩, Or.inr hm⟩
          rintro ⟨_, _, p, q, hpq, _⟩
          exact (hne p q hpq).elim
    refine ⟨key.1, fun hn => ?_⟩
    rcases key.2 with h0 | h1
    · exact absurd (key.1.mp h0) hn
    · exact h1

/-- Witness of C7: `goclient -port 8081 a.swu host` with a file that opens and
a server that answers 200 exits with status 0. -/
theorem C7_exit_status_witness :
    flagParse envAccepted.parseInt 8080 envAccepted.args
      = FlagOutcome.parsed 8081 ["a.swu", "host"] ∧
    (main envAccepted).exitCode = 0 ∧
    uploadAccepted envAccepted 8081 ["a.swu", "host"] :=
  ⟨by decide, by decide,
   ((C7_exit_status envAccepted).2.2 8081 ["a.swu", "host"] (by decide)).1.mp (by decide)⟩

/-- C8 fails on the code: in the run `goclient a.swu host` the file opens, the
request is sent and the server answers 500; the process exits with status 1
through `os.Exit`, which does not run the deferred `file.Close()`, so the
handle is never closed by the program. -/
theorem C8_close_skipped_on_failure :
    (main envServerError).exitCode = 1 ∧
    (main envServerError).trace = [Event.fileOpened, Event.requestSent] ∧
    Event.fileClosed ∉ (main envServerError).trace := by
  decide

/-- C9, as stated, fails: for the file `x` of `2^63 - 1` zero bytes whose
handle is at offset 0, the drained stream is header, content and trailer, that
is `2^63 + 182` bytes, while the returned `contentLength` has wrapped around
to `182 - 2^63`: the emitted byte count is not `contentLength - 0`. -/
theorem C9_counterexample :
    fileHuge.statErr = none ∧ fileHuge.size = fileHuge.data.length ∧ fileHuge.off = 0 ∧
    ∃ body, drainBody 1 fileHuge = some body ∧
      body = filePart fileHuge.name ++ fileHuge.data.drop fileHuge.off ++ bodyBottom ∧
      (body.length : Int) = 2 ^ 63 + 182 ∧
      (bodyMultiReader fileHuge).contentLength = 182 - 2 ^ 63 ∧
      (body.length : Int) ≠ (bodyMultiReader fileHuge).contentLength - fileHuge.off := by
  have hlen : fileHuge.data.length = 2 ^ 63 - 1 := List.length_replicate _ _
  have hcl : (bodyMultiReader fileHuge).contentLength = 182 - 2 ^ 63 := by decide
  have hname : (filePart fileHuge.name).length = 140 := by
    rw [filePart_length]; rfl
  have hbody : ((filePart fileHuge.name ++ fileHuge.data.drop fileHuge.off
      ++ bodyBottom).length : Int) = 2 ^ 63 + 182 := by
    have hoff : fileHuge.off = 0 := rfl
    rw [hoff, List.drop_zero, List.length_append, List.length_append, hname, hlen,
      bodyBottom_length]
    norm_num
  refine ⟨rfl, ?_, rfl, _, drainBody_eq fileHuge rfl 1 (by decide), rfl, hbody, hcl, ?_⟩
  · rw [hlen]; rfl
  · rw [hbody, hcl]
    have hoff : fileHuge.off = 0 := rfl
    rw [hoff]
    norm_num

/-- C9, amended: `bodyMultiReader` takes the file's length from `Stat` but
streams from the handle's current read position: for an `N`-byte file with
content `D` whose handle is at offset `k` (`0 <= k <= N`), fully draining the
returned stream yields header, `D[k..N)` and trailer, whatever the sizes;
provided header length plus `N` plus trailer length is at most `2^63 - 1`,
that is `contentLength - k` bytes, so the declared length and the emitted byte
count agree exactly when `k = 0`. -/
theorem C9_streams_from_current_offset (f : File) (hs : f.statErr = none)
    (hsize : f.size = f.data.length) (hk : f.off ≤ f.data.length)
    (n : Nat) (hn : 0 < n) :
    ∃ body, drainBody n f = some body ∧
      body = filePart f.name ++ f.data.drop f.off ++ bodyBottom ∧
      ((filePart f.name).length + f.data.length + bodyBottom.length < 2 ^ 63 →
        (body.length : Int) = (bodyMultiReader f).contentLength - f.off ∧
        ((body.length : Int) = (bodyMultiReader f).contentLength ↔ f.off = 0)) := by
  refine ⟨_, drainBody_eq f hs n hn, rfl, fun hfit => ?_⟩
  have hfit1 : ((filePart f.name).length : Int) + f.size + bodyBottom.length < 2 ^ 63 := by
    rw [hsize]
    exact_mod_cast hfit
  have hcl := contentLength_fits f hs (by rw [hsize]; exact Int.natCast_nonneg _) hfit1
  have hlen : ((filePart f.name ++ f.data.drop f.off ++ bodyBottom).length : Int)
      = (bodyMultiReader f).contentLength - f.off := by
    rw [hcl, hsize]
    simp only [List.length_append, List.length_drop]
    push_cast [Nat.cast_sub hk]
    ring
  refine ⟨hlen, ?_⟩
  rw [hlen]
  constructor
  · intro h
    have : (f.off : Int) = 0 := by linarith
    exact_mod_cast this
  · intro h
    rw [h]
    simp

/-- Witness of C9: the five-byte file `ABCDE` with its handle at offset 2
drains to header, `CDE` and trailer, two bytes less than `contentLength`. -/
theorem C9_streams_from_current_offset_witness :
    ∃ body, drainBody 4 fileAtOffset2 = some body ∧
      body = filePart fileAtOffset2.name ++ fileAtOffset2.data.drop fileAtOffset2.off
        ++ bodyBottom ∧
      (body.length : Int) = (bodyMultiReader fileAtOffset2).contentLength - fileAtOffset2.off ∧
      ((body.length : Int) = (bodyMultiReader fileAtOffset2).contentLength
        ↔ fileAtOffset2.off = 0) := by
  obtain ⟨body, h1, h2, h3⟩ :=
    C9_streams_from_current_offset fileAtOffset2 (by decide) (by decide) (by decide)
      4 (by decide)
  exact ⟨body, h1, h2, h3 (by decide)⟩

/-- C10: for every file name without a carriage-return byte, the header
rendered by `bodyMultiReader` contains the blank-line terminator CRLF CRLF
exactly once, as its last four bytes; in the drained body the first occurrence
of the terminator ends exactly at the header's length, where the file's bytes
begin, whatever the content.  For the file name CRLF CRLF itself this fails. -/
theorem C10_header_terminator_unique (f : File) (hs : f.statErr = none)
    (hF : 13 ∉ f.name) (n : Nat) (hn : 0 < n) :
    countOcc crlfcrlf (filePart f.name) = 1 ∧
    (filePart f.name).drop ((filePart f.name).length - 4) = crlfcrlf ∧
    (∃ body, drainBody n f = some body ∧
      (index crlfcrlf body).map (· + 4) = some (filePart f.name).length ∧
      body.drop (filePart f.name).length = f.data.drop f.off ++ bodyBottom) ∧
    (∃ F, crlfcrlf <:+: F ∧ countOcc crlfcrlf (filePart F) = 2 ∧
      (index crlfcrlf (filePart F)).map (· + 4) = some 98 ∧ (filePart F).length = 143) := by
  refine ⟨(filePart_terminator f.name [] hF).2, filePart_ends_with_terminator f.name,
    ⟨_, drainBody_eq f hs n hn, ?_, ?_⟩, ⟨crlfcrlf, List.infix_refl _, ?_, ?_, ?_⟩⟩
  · rw [List.append_assoc, (filePart_terminator f.name _ hF).1, filePart_length]
    simp only [Option.map_some', Option.some.injEq]
    omega
  · rw [List.append_assoc, List.drop_left]
  · decide
  · decide
  · decide

/-- Witness of C10: the file `a.swu` with content `ABCDE`. -/
theorem C10_header_terminator_unique_witness :
    countOcc crlfcrlf (filePart fileABCDE.name) = 1 ∧
    (filePart fileABCDE.name).drop ((filePart fileABCDE.name).length - 4) = crlfcrlf ∧
    (∃ body, drainBody 3 fileABCDE = some body ∧
      (index crlfcrlf body).map (· + 4) = some (filePart fileABCDE.name).length ∧
      body.drop (filePart fileABCDE.name).length
        = fileABCDE.data.drop fileABCDE.off ++ bodyBottom) ∧
    (∃ F, crlfcrlf <:+: F ∧ countOcc crlfcrlf (filePart F) = 2 ∧
      (index crlfcrlf (filePart F)).map (· + 4) = some 98 ∧ (filePart F).length = 143) :=
  C10_header_terminator_unique fileABCDE (by decide) (by decide) 3 (by decide)

end GoClient
